import Mathlib

/-!
Shallow embedding of the rigging-utility add-on (files `symmetrize.py` and
`bone_parenting_ops.py`).  Python strings are modelled as Lean `String`s and
the Python string operations used by the code (`in`, `startswith`, `replace`,
`split` with indexing) are re-implemented below with Python's semantics on the
underlying character lists, so that every definition is executable by the
kernel.  Blender's `bpy.utils.flip_name` is host API, not repository code, so
every definition that needs it takes an arbitrary `flip : String → String`
parameter; the concrete `flipLR` below (swap a trailing ".L"/".R") is one such
flip function, used for concrete evaluations.
-/

namespace MetsTools

/-- Python `pat in s` on character lists: `pat` occurs as a contiguous
substring of `s`. -/
def containsL (pat : List Char) : List Char → Bool
  | [] => pat.isPrefixOf ([] : List Char)
  | c :: cs => pat.isPrefixOf (c :: cs) || containsL pat cs

/-- Python `pat in s` for strings. -/
def pyContains (pat s : String) : Bool :=
  containsL pat.data s.data

/-- Python `s.startswith(pre)`. -/
def pyStartsWith (s pre : String) : Bool :=
  pre.data.isPrefixOf s.data

/-- Python `s.replace(pat, rep)` on character lists, fuel-structured so the
kernel can evaluate it: replaces non-overlapping occurrences left to right.
(Python's special behaviour for an empty `pat` is not modelled; all uses in
this development have a non-empty pattern, enforced by hypotheses where it
matters.) -/
def replaceL : Nat → List Char → List Char → List Char → List Char
  | 0, _, _, s => s
  | _ + 1, _, _, [] => []
  | fuel + 1, pat, rep, c :: cs =>
    if !pat.isEmpty && pat.isPrefixOf (c :: cs) then
      rep ++ replaceL fuel pat rep ((c :: cs).drop pat.length)
    else
      c :: replaceL fuel pat rep cs

/-- Python `s.replace(pat, rep)` for strings. -/
def pyReplace (s pat rep : String) : String :=
  ⟨replaceL (s.data.length + 1) pat.data rep.data s.data⟩

/-- Split a character list at the first occurrence of the (non-empty)
separator: returns `(before, after)`, or `none` when the separator does not
occur.  Used to model Python `s.split(sep)` with indexing. -/
def splitFirstL (sep : List Char) : List Char → Option (List Char × List Char)
  | [] => none
  | c :: cs =>
    if !sep.isEmpty && sep.isPrefixOf (c :: cs) then
      some ([], (c :: cs).drop sep.length)
    else
      match splitFirstL sep cs with
      | none => none
      | some p => some (c :: p.1, p.2)

/-- Python `s.split(sep)[1]`: the part between the first and second
occurrence of `sep` (or everything after the first occurrence when there is
no second one); `none` models the `IndexError` raised when `sep` does not
occur at all. -/
def py_split_get1 (sep s : String) : Option String :=
  match splitFirstL sep.data s.data with
  | none => none
  | some p =>
    match splitFirstL sep.data p.2 with
    | none => some ⟨p.2⟩
    | some q => some ⟨q.1⟩

/-- Python `s.split(sep)[0]`: the part before the first occurrence of `sep`
(the whole string when `sep` does not occur). -/
def py_split_get0 (sep s : String) : String :=
  match splitFirstL sep.data s.data with
  | none => s
  | some p => ⟨p.1⟩

/-- A concrete bone-name flipping function (swap a trailing ".L"/".R"),
standing in for the host's `bpy.utils.flip_name` in concrete evaluations.
The general theorems quantify over an arbitrary flip function. -/
def flipLR (s : String) : String :=
  if ['.', 'L'].isSuffixOf s.data then
    ⟨s.data.take (s.data.length - 2) ++ ['.', 'R']⟩
  else if ['.', 'R'].isSuffixOf s.data then
    ⟨s.data.take (s.data.length - 2) ++ ['.', 'L']⟩
  else s

/-! ## `symmetrize.py`: `POSE_OT_Symmetrize`

The armature is modelled by the list of its pose-bone names (`rigBones`) and
the list of the selected pose-bone names (`selected`), in selection-iteration
order.  `rig.pose.bones.get(name)` succeeds exactly when `name` is in
`rigBones`, and a found opposite bone is itself selected exactly when its
name is in `selected`. -/

/-- The three possible Python values returned by
`POSE_OT_Symmetrize.get_symmetrize_bone_mapping`: the `{'CANCELLED'}` set
from the both-sides error branch, the implicit `None` when the loop finishes
without returning, or the `bone_map` dict (as an association list of
(bone name, opposite bone name) pairs). -/
inductive MappingResult where
  | cancelledSet : MappingResult
  | pyNone : MappingResult
  | mapping : List (String × String) → MappingResult
deriving DecidableEq

/-- The `for pb in selected_pose_bones` loop of
`POSE_OT_Symmetrize.get_symmetrize_bone_mapping` (symmetrize.py lines 36-58).
`acc` is the `bone_map` dict built so far.  Branches, in source order:
`flipped_name == pb.name` → `continue`; opposite bone exists and is selected
→ report error and `return {'CANCELLED'}`; `opp_pb == pb` (deselect and
`continue`; unreachable here because `flipped_name ≠ pb.name` means a found
opposite is a different bone); `not opp_pb` → `continue`; otherwise add the
pair to `bone_map` — and then the source's `return bone_map` statement,
which is indented inside the loop body, returns immediately. -/
def symmetrize_mapping_loop (flip : String → String)
    (rigBones selected : List String) (acc : List (String × String)) :
    List String → MappingResult
  | [] => .pyNone
  | pb :: rest =>
    let flipped_name := flip pb
    if flipped_name == pb then
      symmetrize_mapping_loop flip rigBones selected acc rest
    else if rigBones.contains flipped_name && selected.contains flipped_name then
      .cancelledSet
    else if rigBones.contains flipped_name && flipped_name == pb then
      symmetrize_mapping_loop flip rigBones selected acc rest
    else if !(rigBones.contains flipped_name) then
      symmetrize_mapping_loop flip rigBones selected acc rest
    else
      .mapping (acc ++ [(pb, flipped_name)])

/-- `POSE_OT_Symmetrize.get_symmetrize_bone_mapping` (symmetrize.py lines
32-58): runs the loop starting from the empty `bone_map`; falling off the end
of the loop returns Python `None` (the function has no trailing return). -/
def get_symmetrize_bone_mapping (flip : String → String)
    (rigBones selected : List String) : MappingResult :=
  symmetrize_mapping_loop flip rigBones selected [] selected

/-- Outcome of `POSE_OT_Symmetrize.execute`: a normal operator return code,
or the uncaught `AttributeError` raised by `bone_map.values()` when
`get_symmetrize_bone_mapping` returned `None`. -/
inductive ExecResult where
  | finished : ExecResult
  | cancelled : ExecResult
  | attributeError : ExecResult
deriving DecidableEq

/-- `POSE_OT_Symmetrize.execute` (symmetrize.py lines 60-98), reduced to its
control flow on the mapping result: `type(bone_map) == set` is true exactly
for the `{'CANCELLED'}` value and is returned as-is; on a `None` result the
very next statement `for to_pb in bone_map.values()` raises
`AttributeError`; with a dict the constraint removal, the host symmetrize
call and the mirroring run and the operator returns `{'FINISHED'}`. -/
def POSE_OT_Symmetrize_execute (flip : String → String)
    (rigBones selected : List String) : ExecResult :=
  match get_symmetrize_bone_mapping flip rigBones selected with
  | .cancelledSet => .cancelled
  | .pyNone => .attributeError
  | .mapping _ => .finished

/-- The selected-bones part of `POSE_OT_Symmetrize.poll` (symmetrize.py lines
25-27): some selected bone's name differs from its flipped name.  The active
armature / pose-mode checks are ambient in this model. -/
def POSE_OT_Symmetrize_poll (flip : String → String)
    (selected : List String) : Bool :=
  selected.any (fun b => !(flip b == b))

/-! ## `remove_constraint_with_drivers` and the removal loop in `execute`

A target bone's constraint stack is modelled as the list of its constraint
names (Blender keeps constraint names unique per bone, so a name identifies
the constraint object), and the armature's driver collection as the list of
the driver f-curves' data paths. -/

/-- The data-path literal
`f'pose.bones["{pbone.name}"].constraints["{con.name}"].'` from
symmetrize.py line 112. -/
def con_driver_path_start (boneName conName : String) : String :=
  "pose.bones[\"" ++ boneName ++ "\"].constraints[\"" ++ conName ++ "\"]."

/-- `remove_constraint_with_drivers` (symmetrize.py lines 101-116): iterates
over a copy `drivers[:]` of the driver collection removing each f-curve whose
data path starts with the bone-and-constraint literal (equivalently: keeps
exactly the non-matching ones, in order), then removes the constraint from
the bone.  Returns (remaining driver data paths, remaining constraints). -/
def remove_constraint_with_drivers (boneName conName : String)
    (drivers cons : List String) : List String × List String :=
  (drivers.filter (fun dp => !(pyStartsWith dp (con_driver_path_start boneName conName))),
   cons.erase conName)

/-- The `for to_con in to_pb.constraints` loop of
`POSE_OT_Symmetrize.execute` (symmetrize.py lines 68-69), with Python's
index-based sequence iteration made explicit: the loop iterates the *live*
collection by position `i` while `remove_constraint_with_drivers` removes the
element just visited, so each removal shifts the later constraints down by
one under the iterator.  The fuel argument only bounds the iteration count;
`remove_target_constraints` supplies enough of it. -/
def remove_target_constraints_iter (boneName : String) :
    Nat → Nat → List String → List String → List String × List String
  | 0, _, drivers, cons => (drivers, cons)
  | fuel + 1, i, drivers, cons =>
    if h : i < cons.length then
      let c := cons.get ⟨i, h⟩
      let dc := remove_constraint_with_drivers boneName c drivers cons
      remove_target_constraints_iter boneName fuel (i + 1) dc.1 dc.2
    else (drivers, cons)

/-- Entry point for the per-target-bone constraint removal loop of
`POSE_OT_Symmetrize.execute` (symmetrize.py lines 68-69). -/
def remove_target_constraints (boneName : String)
    (drivers cons : List String) : List String × List String :=
  remove_target_constraints_iter boneName cons.length 0 drivers cons

/-! ## `mirror_constraint`, `LIMIT_LOCATION` branch

A constraint is a record of its name, its (read-only) type and its writable
attributes; the transform limits are modelled as rationals (the host stores
floats, but only negation and copying of these values occur here). -/

structure BoneConstraint where
  name : String
  ctype : String
  subtarget : String
  influence : Rat
  min_x : Rat
  max_x : Rat
  track_axis : String
deriving DecidableEq

/-- Modelled from the spec: `utils.copy_attributes(con, opp_c, skip=['name',
'subtarget'])` — the file `utils.py` of this repository is not under `src/`.
Copies every writable attribute of the source constraint onto the
destination except those in the skip list (here: everything but `name` and
`subtarget`; the read-only `type` cannot be assigned). -/
def copy_attributes (src dst : BoneConstraint) : BoneConstraint :=
  { dst with
    influence := src.influence
    min_x := src.min_x
    max_x := src.max_x
    track_axis := src.track_axis }

/-- Modelled from the spec: `utils.find_or_create_constraint(opp_pb,
con.type, name)` — the file `utils.py` of this repository is not under
`src/`.  Returns the bone's constraint with the given type and name when one
exists, otherwise a freshly created constraint of that type with that name
(host defaults for the other fields), together with the possibly extended
stack. -/
def find_or_create_constraint (cons : List BoneConstraint)
    (ctype cname : String) : List BoneConstraint × BoneConstraint :=
  match cons.find? (fun c => c.ctype == ctype && c.name == cname) with
  | some c => (cons, c)
  | none =>
    let c : BoneConstraint :=
      { name := cname, ctype := ctype, subtarget := ""
        influence := 1, min_x := 0, max_x := 0, track_axis := "TRACK_Y" }
    (cons ++ [c], c)

/-- `mirror_constraint` (symmetrize.py lines 119-136 and 177-180) restricted
to a `LIMIT_LOCATION` constraint on a bone whose opposite bone exists and
differs from it: find or create the opposite constraint, copy the source's
attributes onto it (skipping name and subtarget), rename it to the flipped
constraint name, then override the X limits: `opp_c.min_x = con.max_x * -1`
and `opp_c.max_x = con.min_x * -1`.  Returns the resulting opposite
constraint. -/
def mirror_constraint_limit_location (flip : String → String)
    (con : BoneConstraint) (oppCons : List BoneConstraint) : BoneConstraint :=
  let flipped_con_name := flip con.name
  let found := find_or_create_constraint oppCons con.ctype con.name
  let c1 := copy_attributes con found.2
  let c2 := { c1 with name := flipped_con_name }
  { c2 with min_x := con.max_x * (-1), max_x := con.min_x * (-1) }

/-! ## `mirror_constraint`, `ACTION` branch

An action's f-curves are modelled as a list of records; a keyframe keeps the
x and y components of its co-ordinate and of both handles. -/

structure Keyframe where
  co0 : Rat
  co1 : Rat
  handle_left0 : Rat
  handle_left1 : Rat
  handle_right0 : Rat
  handle_right1 : Rat
deriving DecidableEq

structure FCurve where
  data_path : String
  array_index : Nat
  extrapolation : String
  group : String
  keyframe_points : List Keyframe
deriving DecidableEq

structure BlAction where
  fcurves : List FCurve
deriving DecidableEq

/-- Whether an f-curve sits at the given data path and array index (the
lookup key of `action.fcurves.find(data_path, index=...)`). -/
def slot_match (path : String) (idx : Nat) (c : FCurve) : Bool :=
  c.data_path == path && c.array_index == idx

/-- `action.fcurves.find(data_path, index=...)`: the first f-curve with the
given data path and array index. -/
def fcurves_find (fcs : List FCurve) (path : String) (idx : Nat) : Option FCurve :=
  fcs.find? (slot_match path idx)

/-- `action.fcurves.remove(opp_cur)` where `opp_cur` was just found: removes
the first f-curve with the given data path and array index. -/
def fcurves_remove_first (path : String) (idx : Nat) : List FCurve → List FCurve
  | [] => []
  | c :: cs =>
    if slot_match path idx c then cs
    else c :: fcurves_remove_first path idx cs

/-- The `while True` nuke loop of `mirror_constraint` (symmetrize.py lines
151-157): repeatedly find an f-curve at the opposite data path and array
index and remove it, until none is found.  Fuel-structured; the caller
passes the length of the list, which bounds the number of removals. -/
def nuke_opposite_curves : Nat → String → Nat → List FCurve → List FCurve
  | 0, _, _, fcs => fcs
  | fuel + 1, path, idx, fcs =>
    match fcurves_find fcs path idx with
    | none => fcs
    | some _ => nuke_opposite_curves fuel path idx (fcurves_remove_first path idx fcs)

/-- Whether the keyframes of a mirrored action curve get their values
negated (symmetrize.py lines 170-172): a location channel with array index 0
or a rotation channel with array index 1 or 2 (membership tested by Python
substring containment on the source curve's data path). -/
def action_curve_negates (cur : FCurve) : Bool :=
  (pyContains "location" cur.data_path && cur.array_index == 0)
    || (pyContains "rotation" cur.data_path && (cur.array_index == 1 || cur.array_index == 2))

/-- The keyframe written for one source keyframe (symmetrize.py lines
166-175): `keyframe_points.insert(kf.co[0], kf.co[1])` followed by
`utils.copy_attributes(kf, opp_kf, skip=["data_path"])` (which copies the
handles, modelled by carrying them over), then `co[1]`, `handle_left[1]` and
`handle_right[1]` are multiplied by -1 when the negation condition holds. -/
def mirror_keyframe (neg : Bool) (kf : Keyframe) : Keyframe :=
  if neg then
    { kf with
      co1 := kf.co1 * (-1)
      handle_left1 := kf.handle_left1 * (-1)
      handle_right1 := kf.handle_right1 * (-1) }
  else kf

/-- The opposite f-curve created for one source curve (symmetrize.py lines
159-175): `action.fcurves.new(opp_data_path, index=cur.array_index,
action_group=opp_pb.name)`, then `utils.copy_attributes(cur, opp_cur,
skip=["data_path", "group"])` (modelled by copying the representative
writable attribute `extrapolation`; the array index was already given to
`new`), then the per-keyframe copy loop. -/
def mirrored_curve (srcName oppName : String) (cur : FCurve) : FCurve :=
  { data_path := pyReplace cur.data_path srcName oppName
    array_index := cur.array_index
    extrapolation := cur.extrapolation
    group := oppName
    keyframe_points := cur.keyframe_points.map (mirror_keyframe (action_curve_negates cur)) }

/-- The body of the `for cur in curves` loop of `mirror_constraint`'s
`ACTION` branch (symmetrize.py lines 147-175): compute the opposite data
path (`cur.data_path.replace(pbone.name, opp_pb.name)`), nuke every existing
curve at that path and index, then create the mirrored curve (appended at
the end of the collection). -/
def mirror_action_curve (srcName oppName : String) (a : BlAction) (cur : FCurve) :
    BlAction :=
  let opp_data_path := pyReplace cur.data_path srcName oppName
  let nuked := nuke_opposite_curves a.fcurves.length opp_data_path cur.array_index a.fcurves
  { fcurves := nuked ++ [mirrored_curve srcName oppName cur] }

/-- The `curves` list collected by `mirror_constraint`'s `ACTION` branch
(symmetrize.py lines 143-146): the action's f-curves whose data path
contains the source bone's name. -/
def action_matched_curves (srcName : String) (a : BlAction) : List FCurve :=
  a.fcurves.filter (fun c => pyContains srcName c.data_path)

/-- The `ACTION` branch of `mirror_constraint` (symmetrize.py lines 138-175):
collect the matching curves up front, then process each in order. -/
def mirror_action_constraint (srcName oppName : String) (a : BlAction) : BlAction :=
  (action_matched_curves srcName a).foldl (mirror_action_curve srcName oppName) a

/-- The f-curves of an action at a given data path and array index, in
order. -/
def curves_at (a : BlAction) (path : String) (idx : Nat) : List FCurve :=
  a.fcurves.filter (slot_match path idx)

/-! ## `mirror_drivers`: copying driver variables

A driver variable's target is the record of the fields assigned by the copy
loop (symmetrize.py lines 272-292). -/

structure DriverTarget where
  id_type : String
  id : String
  bone_target : String
  data_path : String
  rotation_mode : String
  transform_type : String
  transform_space : String
deriving DecidableEq

structure DriverVariable where
  vtype : String
  name : String
  targets : List DriverTarget
deriving DecidableEq

/-- The data-path rewrite of the driver-variable copy loop (symmetrize.py
lines 280-284): when `"pose.bones"` occurs in the path, extract
`data_path.split('pose.bones["')[1].split('"')[0]` as the bone name and
replace every occurrence of it by its flipped form; `none` models the
`IndexError` raised by the `[1]` indexing when `'pose.bones["'` does not
occur in the path. -/
def mirror_driver_target_data_path (flip : String → String) (dp : String) :
    Option String :=
  if pyContains "pose.bones" dp then
    match py_split_get1 "pose.bones[\"" dp with
    | none => none
    | some seg =>
      let bone_name := py_split_get0 "\"" seg
      some (pyReplace dp bone_name (flip bone_name))
  else some dp

/-- The left/right `HACK` of the driver-variable copy loop (symmetrize.py
lines 285-289): replace `"left"` by `"right"` when `"left"` occurs, else
replace `"right"` by `"left"` when `"right"` occurs. -/
def left_right_hack (dp : String) : String :=
  if pyContains "left" dp then pyReplace dp "left" "right"
  else if pyContains "right" dp then pyReplace dp "right" "left"
  else dp

/-- One iteration of the target copy loop of `mirror_drivers` (symmetrize.py
lines 272-292), producing the new variable's target from the source
variable's target at the same position: `id_type` is copied only for a
`SINGLE_PROP` variable (otherwise the new target keeps the host default
`"OBJECT"`), `id` and `rotation_mode` are copied, `bone_target` is set to
the flipped source bone target, the data path goes through the bone-name
rewrite and then the left/right hack, and the transform fields are
copied. -/
def mirror_driver_var_target (flip : String → String) (vtype : String)
    (t : DriverTarget) : Option DriverTarget :=
  match mirror_driver_target_data_path flip t.data_path with
  | none => none
  | some dp =>
    some
      { id_type := if vtype == "SINGLE_PROP" then t.id_type else "OBJECT"
        id := t.id
        bone_target := flip t.bone_target
        data_path := left_right_hack dp
        rotation_mode := t.rotation_mode
        transform_type := t.transform_type
        transform_space := t.transform_space }

/-- The `for from_var in d.driver.variables` loop of `mirror_drivers`
(symmetrize.py lines 267-293): the new driver gets, for each source
variable, a variable with the same type and name whose targets are the
mirrored source targets, position by position. -/
def mirror_driver_variable (flip : String → String) (v : DriverVariable) :
    Option DriverVariable :=
  match v.targets.mapM (mirror_driver_var_target flip v.vtype) with
  | none => none
  | some ts => some { vtype := v.vtype, name := v.name, targets := ts }

/-! ## `bone_parenting_ops.py`: `GenericBoneOperator` and its subclasses

An edit bone is a record of the fields this code touches; the armature keeps
the bone list, the X-mirror flag, the current interaction mode and a trace
of the `bpy.ops.object.mode_set` calls issued during an operator run. -/

structure EditBone where
  name : String
  select : Bool
  parent : Option String
  use_connect : Bool
  hide : Bool
deriving DecidableEq

structure ArmatureRig where
  bones : List EditBone
  use_mirror_x : Bool
  mode : String
  mode_calls : List String
deriving DecidableEq

/-- `bpy.ops.object.mode_set(mode=m)`: switches the object's interaction
mode and records the call. -/
def mode_set (m : String) (r : ArmatureRig) : ArmatureRig :=
  { r with mode := m, mode_calls := r.mode_calls ++ [m] }

/-- The names of all bones of the armature (`rig.data.bones`, used via
`.get(flipped_name)`). -/
def rig_bone_names (r : ArmatureRig) : List String :=
  r.bones.map (fun b => b.name)

/-- `get_selected_bones(context)` (bone_parenting_ops.py lines 23-37), as
names: the selected bones, in order.  (In pose mode these come from
`context.selected_pose_bones`, in edit mode from filtering
`rig.data.edit_bones` on `select`; both enumerate the same bones here.) -/
def selected_bone_names (r : ArmatureRig) : List String :=
  (r.bones.filter (fun b => b.select)).map (fun b => b.name)

/-- The `bone_names` list built by `GenericBoneOperator.affect_bones`
(bone_parenting_ops.py lines 64-76): the selected bones' names and, when the
armature's X-mirror option is on, for each of them (iterating the snapshot
`bone_names[:]`) the flipped name appended at the end — skipped when the
name equals its flipped form (`continue`) or when no bone of the armature
has the flipped name (`continue`).  `mirror_extend_step` is one iteration of
the appending loop, `affect_bones_names` the whole computation. -/
def mirror_extend_step (flip : String → String) (rigBones : List String)
    (acc : List String) (bone_name : String) : List String :=
  let flipped_name := flip bone_name
  if flipped_name == bone_name then acc
  else if rigBones.contains flipped_name then acc ++ [flipped_name]
  else acc

/-- See `mirror_extend_step`. -/
def affect_bones_names (flip : String → String) (use_mirror_x : Bool)
    (rigBones selectedNames : List String) : List String :=
  if use_mirror_x then
    selectedNames.foldl (mirror_extend_step flip rigBones) selectedNames
  else selectedNames

/-- One iteration of the `for bone_name in bone_names` loop of
`affect_bones` (bone_parenting_ops.py lines 79-83): look the bone up by name
in `context.object.data.edit_bones` (`none` models the `KeyError` when it is
absent), apply the subclass's `affect_bone` (which may mutate the bone in
place — `some` — or remove it — `none` in its first component), and report
whether the bone was affected. -/
def apply_affect (affect : EditBone → Option EditBone × Bool) (n : String)
    (r : ArmatureRig) : Option (ArmatureRig × Bool) :=
  match r.bones.find? (fun b => b.name == n) with
  | none => none
  | some b =>
    let res := affect b
    let bones :=
      match res.1 with
      | some nb => r.bones.map (fun x => if x.name == n then nb else x)
      | none => r.bones.filter (fun x => !(x.name == n))
    some ({ r with bones := bones }, res.2)

/-- The `for bone_name in bone_names` loop of `affect_bones`
(bone_parenting_ops.py lines 78-83), accumulating the `affected_bones`
names; a lookup failure aborts the run (uncaught `KeyError`). -/
def affect_bones_loop (affect : EditBone → Option EditBone × Bool) :
    List String → ArmatureRig → List String → Option (ArmatureRig × List String)
  | [], r, acc => some (r, acc)
  | n :: rest, r, acc =>
    match apply_affect affect n r with
    | none => none
    | some (r2, was) =>
      affect_bones_loop affect rest r2 (if was then acc ++ [n] else acc)

/-- `GenericBoneOperator.affect_bones` (bone_parenting_ops.py lines 60-86):
save the mode, read the selected bones, enter edit mode if not already
there, extend the name list for X-mirror, run the per-bone loop, then set
the saved mode again and return the affected names. -/
def affect_bones (affect : EditBone → Option EditBone × Bool)
    (flip : String → String) (r : ArmatureRig) :
    Option (List String × ArmatureRig) :=
  let mode := r.mode
  let bone_names := selected_bone_names r
  let r1 := if mode != "EDIT" then mode_set "EDIT" r else r
  let names := affect_bones_names flip r.use_mirror_x (rig_bone_names r) bone_names
  match affect_bones_loop affect names r1 [] with
  | none => none
  | some (r2, affected) => some (affected, mode_set mode r2)

/-- `POSE_OT_disconnect_bones.affect_bone` (bone_parenting_ops.py lines
110-114): when the bone has a parent, clear the parent and report `True`,
otherwise report `False`. -/
def disconnect_affect_bone (eb : EditBone) : EditBone × Bool :=
  if eb.parent.isSome then ({ eb with parent := none }, true) else (eb, false)

/-- `POSE_OT_unparent_bones.affect_bone` (bone_parenting_ops.py lines
140-144): when the bone has a parent, clear the parent and report `True`,
otherwise report `False`. -/
def unparent_affect_bone (eb : EditBone) : EditBone × Bool :=
  if eb.parent.isSome then ({ eb with parent := none }, true) else (eb, false)

/-- `POSE_OT_disconnect_bones.affect_bone` lifted to the shape expected by
`affect_bones` (the bone survives, possibly mutated). -/
def disconnect_affect (eb : EditBone) : Option EditBone × Bool :=
  (some (disconnect_affect_bone eb).1, (disconnect_affect_bone eb).2)

/-- `POSE_OT_unparent_bones.affect_bone` lifted to the shape expected by
`affect_bones`. -/
def unparent_affect (eb : EditBone) : Option EditBone × Bool :=
  (some (unparent_affect_bone eb).1, (unparent_affect_bone eb).2)

/-- `POSE_OT_delete_bones.affect_bone` (bone_parenting_ops.py lines
160-163): unhide the bone (irrelevant once removed), remove it from the
armature's edit bones, report `True`. -/
def delete_affect (_eb : EditBone) : Option EditBone × Bool :=
  (none, true)

/-! ## Concrete data for witnesses -/

/-- A concrete source f-curve of an `ACTION` constraint's action: the X
location channel of bone `Arm.L`. -/
def wCurve : FCurve :=
  { data_path := "pose.bones[\"Arm.L\"].location"
    array_index := 0
    extrapolation := "CONSTANT"
    group := "Arm.L"
    keyframe_points := [⟨0, 1, -1, 2, 1, 3⟩] }

/-- A concrete action holding just `wCurve`. -/
def wAction : BlAction := { fcurves := [wCurve] }

/-- A concrete driver-variable target whose data path addresses a pose
bone. -/
def wTarget : DriverTarget :=
  { id_type := "OBJECT"
    id := "Rig"
    bone_target := "Arm.L"
    data_path := "pose.bones[\"Arm.L\"].location"
    rotation_mode := "AUTO"
    transform_type := "LOC_X"
    transform_space := "LOCAL_SPACE" }

/-- A concrete armature in pose mode with one selected, parented bone. -/
def wRig : ArmatureRig :=
  { bones := [{ name := "Hand.L", select := true, parent := some "Arm.L"
                use_connect := true, hide := false }]
    use_mirror_x := false
    mode := "POSE"
    mode_calls := [] }

/-- The run of the disconnect operator's `affect_bones` on `wRig`. -/
def wRigResult : List String × ArmatureRig :=
  (["Hand.L"],
   { bones := [{ name := "Hand.L", select := true, parent := none
                 use_connect := true, hide := false }]
     use_mirror_x := false
     mode := "POSE"
     mode_calls := ["EDIT", "POSE"] })

/-! ## Theorems -/

/-- Claim C1 (status code_bug, failing input): with bones `Arm.L` and
`Leg.L` selected and their opposites `Arm.R`, `Leg.R` existing and
unselected, both selected bones satisfy every condition for being mirrored,
yet `get_symmetrize_bone_mapping` returns a mapping holding only the first
pair — the `return bone_map` statement of symmetrize.py line 58 sits inside
the `for` loop, so the operator mirrors only the first mappable bone instead
of all selected ones as its own docstring states. -/
theorem mapping_returns_after_first_pair :
    get_symmetrize_bone_mapping flipLR ["Arm.L", "Arm.R", "Leg.L", "Leg.R"]
        ["Arm.L", "Leg.L"] = .mapping [("Arm.L", "Arm.R")] ∧
    flipLR "Leg.L" ≠ "Leg.L" ∧
    (["Arm.L", "Arm.R", "Leg.L", "Leg.R"] : List String).contains (flipLR "Leg.L") = true ∧
    (["Arm.L", "Leg.L"] : List String).contains (flipLR "Leg.L") = false := by
  decide

/-- Claim C2 (status code_bug, failing input): one selected bone `Arm.L`
whose flipped name differs, so `poll` passes, but no bone `Arm.R` exists in
the rig: the mapping loop falls off its end, `get_symmetrize_bone_mapping`
returns Python `None`, and `execute` raises `AttributeError` at
`bone_map.values()` instead of returning an operator return code. -/
theorem execute_raises_on_missing_opposite :
    POSE_OT_Symmetrize_poll flipLR ["Arm.L"] = true ∧
    POSE_OT_Symmetrize_execute flipLR ["Arm.L"] ["Arm.L"] = .attributeError := by
  decide

/-- Claim C3 (status code_bug, failing input): `Arm.L` and its flipped name
`Arm.R` are both selected, which the both-sides error branch is meant to
report with `{'CANCELLED'}`; but because the first selected bone `Hand.L`
maps successfully and the in-loop `return bone_map` fires immediately, the
loop never reaches `Arm.L`: the operator proceeds and finishes, mirroring
the `Hand` pair. -/
theorem both_sides_error_skipped :
    (["Hand.L", "Arm.L", "Arm.R"] : List String).contains (flipLR "Arm.L") = true ∧
    get_symmetrize_bone_mapping flipLR ["Hand.L", "Hand.R", "Arm.L", "Arm.R"]
        ["Hand.L", "Arm.L", "Arm.R"] = .mapping [("Hand.L", "Hand.R")] ∧
    POSE_OT_Symmetrize_execute flipLR ["Hand.L", "Hand.R", "Arm.L", "Arm.R"]
        ["Hand.L", "Arm.L", "Arm.R"] = .finished := by
  decide

/-- Claim C4 (status code_bug, failing input): a target bone with two
constraints `ConA`, `ConB`, each with one driver f-curve.  The removal loop
of `execute` iterates the live constraint collection by position while
`remove_constraint_with_drivers` removes the visited element, so after
removing `ConA` the iterator lands past `ConB`: `ConB` and its driver
survive, contradicting "every constraint previously on the target bone is
removed". -/
theorem second_constraint_survives_removal :
    remove_target_constraints "Bone"
        ["pose.bones[\"Bone\"].constraints[\"ConA\"].influence",
         "pose.bones[\"Bone\"].constraints[\"ConB\"].influence"]
        ["ConA", "ConB"]
      = (["pose.bones[\"Bone\"].constraints[\"ConB\"].influence"], ["ConB"]) := by
  decide

/-- Claim C5: mirroring a `LIMIT_LOCATION` constraint gives the opposite
constraint a minimum X limit equal to the negated source maximum X limit and
a maximum X limit equal to the negated source minimum X limit, for every
source constraint, flip function and opposite constraint stack. -/
theorem limit_location_mirror_swaps_negates (flip : String → String)
    (con : BoneConstraint) (oppCons : List BoneConstraint) :
    (mirror_constraint_limit_location flip con oppCons).min_x = -con.max_x ∧
    (mirror_constraint_limit_location flip con oppCons).max_x = -con.min_x := by
  simp [mirror_constraint_limit_location, copy_attributes, mul_neg_one]

/-- Claim C9: the per-bone mutation of the disconnect operator is the very
same function as that of the unparent operator; it always leaves the bone
parentless, never touches the connected flag, and reports the bone affected
exactly when it had a parent. -/
theorem disconnect_equals_unparent :
    (∀ eb, disconnect_affect_bone eb = unparent_affect_bone eb) ∧
    (∀ eb, (disconnect_affect_bone eb).1.parent = none ∧
      (disconnect_affect_bone eb).1.use_connect = eb.use_connect ∧
      (disconnect_affect_bone eb).2 = eb.parent.isSome) := by
  constructor
  · intro eb
    rfl
  · intro eb
    cases h : eb.parent <;> simp [disconnect_affect_bone, h]

lemma slot_match_iff {path : String} {idx : Nat} {c : FCurve} :
    slot_match path idx c = true ↔ c.data_path = path ∧ c.array_index = idx := by
  simp [slot_match]

lemma filter_fcurves_remove_first (p : String) (i : Nat) (fcs : List FCurve) :
    (fcurves_remove_first p i fcs).filter (fun c => !slot_match p i c) =
      fcs.filter (fun c => !slot_match p i c) := by
  induction fcs with
  | nil => rfl
  | cons c cs ih =>
    cases hc : slot_match p i c with
    | true => simp [fcurves_remove_first, hc, List.filter_cons]
    | false => simp [fcurves_remove_first, hc, List.filter_cons, ih]

lemma length_remove_first_of_find {p : String} {i : Nat} {fcs : List FCurve}
    {c : FCurve} (h : fcurves_find fcs p i = some c) :
    (fcurves_remove_first p i fcs).length + 1 = fcs.length := by
  induction fcs with
  | nil => simp [fcurves_find] at h
  | cons x xs ih =>
    cases hx : slot_match p i x with
    | true => simp [fcurves_remove_first, hx]
    | false =>
      rw [fcurves_find, List.find?_cons_of_neg _ (by simp [hx])] at h
      simp [fcurves_remove_first, hx, ih h]

lemma nuke_eq_filter (p : String) (i : Nat) :
    ∀ (fuel : Nat) (fcs : List FCurve), fcs.length ≤ fuel →
      nuke_opposite_curves fuel p i fcs = fcs.filter (fun c => !slot_match p i c) := by
  intro fuel
  induction fuel with
  | zero =>
    intro fcs h
    have : fcs = [] := List.length_eq_zero.mp (Nat.le_zero.mp h)
    subst this
    rfl
  | succ fuel ih =>
    intro fcs h
    rw [nuke_opposite_curves]
    cases hfind : fcurves_find fcs p i with
    | none =>
      have hall : ∀ x ∈ fcs, (!slot_match p i x) = true := by
        intro x hx
        have := List.find?_eq_none.mp hfind x hx
        simpa using this
      exact (List.filter_eq_self.mpr hall).symm
    | some c =>
      have hlen : (fcurves_remove_first p i fcs).length + 1 = fcs.length :=
        length_remove_first_of_find hfind
      have hle : (fcurves_remove_first p i fcs).length ≤ fuel := by omega
      rw [ih _ hle, filter_fcurves_remove_first]

lemma curves_at_mirror_action_curve (s o : String) (a : BlAction) (cur : FCurve)
    (q : String) (j : Nat) :
    curves_at (mirror_action_curve s o a cur) q j =
      if q = pyReplace cur.data_path s o ∧ j = cur.array_index then
        [mirrored_curve s o cur]
      else curves_at a q j := by
  unfold mirror_action_curve curves_at
  dsimp only
  rw [nuke_eq_filter _ _ _ _ (Nat.le_refl _), List.filter_append, List.filter_filter]
  by_cases h : q = pyReplace cur.data_path s o ∧ j = cur.array_index
  · obtain ⟨hq, hj⟩ := h
    rw [if_pos ⟨hq, hj⟩]
    have h1 : ∀ c : FCurve,
        (slot_match q j c &&
          !slot_match (pyReplace cur.data_path s o) cur.array_index c) = false := by
      intro c
      cases hc : slot_match q j c with
      | true =>
        have : slot_match (pyReplace cur.data_path s o) cur.array_index c = true := by
          rw [slot_match_iff] at hc ⊢
          exact ⟨hq ▸ hc.1, hj ▸ hc.2⟩
        simp [this]
      | false => simp
    have h2 : slot_match q j (mirrored_curve s o cur) = true := by
      rw [slot_match_iff]
      exact ⟨by simp [mirrored_curve, hq], by simp [mirrored_curve, hj]⟩
    simp only [h1, List.filter_false]
    simp [List.filter, h2]
  · rw [if_neg h]
    have h1 : ∀ c ∈ a.fcurves,
        (slot_match q j c &&
          !slot_match (pyReplace cur.data_path s o) cur.array_index c) = slot_match q j c := by
      intro c _
      cases hc : slot_match q j c with
      | true =>
        have : slot_match (pyReplace cur.data_path s o) cur.array_index c = false := by
          cases hop : slot_match (pyReplace cur.data_path s o) cur.array_index c with
          | false => rfl
          | true =>
            rw [slot_match_iff] at hc hop
            exact absurd ⟨hop.1 ▸ hc.1.symm ▸ rfl, hop.2 ▸ hc.2.symm ▸ rfl⟩ h
        simp [this]
      | false => simp
    have h2 : slot_match q j (mirrored_curve s o cur) = false := by
      cases hm : slot_match q j (mirrored_curve s o cur) with
      | false => rfl
      | true =>
        rw [slot_match_iff] at hm
        exact absurd ⟨by simpa [mirrored_curve] using hm.1.symm,
          by simpa [mirrored_curve] using hm.2.symm⟩ h
    rw [List.filter_congr h1]
    simp [List.filter, h2]

lemma curves_at_foldl_untouched (s o : String) :
    ∀ (l : List FCurve) (a : BlAction) (q : String) (j : Nat),
      (∀ c ∈ l, ¬(q = pyReplace c.data_path s o ∧ j = c.array_index)) →
      curves_at (l.foldl (mirror_action_curve s o) a) q j = curves_at a q j := by
  intro l
  induction l with
  | nil => intro a q j _; rfl
  | cons c l ih =>
    intro a q j h
    rw [List.foldl_cons, ih _ _ _ (fun c2 hc2 => h c2 (List.mem_cons_of_mem _ hc2)),
      curves_at_mirror_action_curve, if_neg (h c (List.mem_cons_self _ _))]

lemma mirrored_curve_spelled (s o : String) (cur : FCurve) :
    mirrored_curve s o cur =
      { data_path := pyReplace cur.data_path s o
        array_index := cur.array_index
        extrapolation := cur.extrapolation
        group := o
        keyframe_points := cur.keyframe_points.map (fun kf =>
          if (pyContains "location" cur.data_path && cur.array_index == 0)
              || (pyContains "rotation" cur.data_path
                    && (cur.array_index == 1 || cur.array_index == 2)) then
            { kf with co1 := -kf.co1, handle_left1 := -kf.handle_left1,
                      handle_right1 := -kf.handle_right1 }
          else kf) } := by
  have hfun : mirror_keyframe (action_curve_negates cur) = (fun kf =>
      if (pyContains "location" cur.data_path && cur.array_index == 0)
          || (pyContains "rotation" cur.data_path
                && (cur.array_index == 1 || cur.array_index == 2)) then
        { kf with co1 := -kf.co1, handle_left1 := -kf.handle_left1,
                  handle_right1 := -kf.handle_right1 }
      else kf) := by
    funext kf
    simp only [mirror_keyframe, action_curve_negates, mul_neg_one]
  rw [mirrored_curve, hfun]

/-- Claim C6: mirroring an `ACTION` constraint creates, for every f-curve of
the action whose data path contains the source bone's name (provided the
mirrored slots are pairwise distinct), exactly one curve at the data path
with the bone name replaced by the opposite bone's name and the same array
index, whose keyframe co-ordinates and handles are negated in y exactly when
the source curve is a location channel with array index 0 or a rotation
channel with array index 1 or 2, and copied unchanged otherwise; slots that
are not a mirrored slot keep exactly their previous curves. -/
theorem action_mirror_creates_opposite_curve (srcName oppName : String)
    (a : BlAction) (cur : FCurve)
    (hmem : cur ∈ action_matched_curves srcName a)
    (hdist : (action_matched_curves srcName a).Pairwise
      (fun c c2 => ¬(pyReplace c.data_path srcName oppName
          = pyReplace c2.data_path srcName oppName
        ∧ c.array_index = c2.array_index))) :
    curves_at (mirror_action_constraint srcName oppName a)
        (pyReplace cur.data_path srcName oppName) cur.array_index =
      [{ data_path := pyReplace cur.data_path srcName oppName
         array_index := cur.array_index
         extrapolation := cur.extrapolation
         group := oppName
         keyframe_points := cur.keyframe_points.map (fun kf =>
           if (pyContains "location" cur.data_path && cur.array_index == 0)
               || (pyContains "rotation" cur.data_path
                     && (cur.array_index == 1 || cur.array_index == 2)) then
             { kf with co1 := -kf.co1, handle_left1 := -kf.handle_left1,
                       handle_right1 := -kf.handle_right1 }
           else kf) }] ∧
    ∀ q j, (∀ c ∈ action_matched_curves srcName a,
        ¬(q = pyReplace c.data_path srcName oppName ∧ j = c.array_index)) →
      curves_at (mirror_action_constraint srcName oppName a) q j = curves_at a q j := by
  constructor
  · obtain ⟨l1, l2, hsplit⟩ := List.append_of_mem hmem
    rw [mirror_action_constraint, hsplit, List.foldl_append, List.foldl_cons]
    rw [hsplit] at hdist
    have hpair := (List.pairwise_append.mp hdist).2.1
    have hl2 := (List.pairwise_cons.mp hpair).1
    rw [curves_at_foldl_untouched _ _ l2 _ _ _ hl2,
      curves_at_mirror_action_curve, if_pos ⟨rfl, rfl⟩, mirrored_curve_spelled]
  · intro q j h
    rw [mirror_action_constraint, curves_at_foldl_untouched _ _ _ _ _ _ h]

theorem action_mirror_witness :
    wCurve ∈ action_matched_curves "Arm.L" wAction ∧
    (action_matched_curves "Arm.L" wAction).Pairwise
      (fun c c2 => ¬(pyReplace c.data_path "Arm.L" "Arm.R"
          = pyReplace c2.data_path "Arm.L" "Arm.R"
        ∧ c.array_index = c2.array_index)) ∧
    curves_at (mirror_action_constraint "Arm.L" "Arm.R" wAction)
        (pyReplace wCurve.data_path "Arm.L" "Arm.R") wCurve.array_index =
      [{ data_path := pyReplace wCurve.data_path "Arm.L" "Arm.R"
         array_index := wCurve.array_index
         extrapolation := wCurve.extrapolation
         group := "Arm.R"
         keyframe_points := wCurve.keyframe_points.map (fun kf =>
           if (pyContains "location" wCurve.data_path && wCurve.array_index == 0)
               || (pyContains "rotation" wCurve.data_path
                     && (wCurve.array_index == 1 || wCurve.array_index == 2)) then
             { kf with co1 := -kf.co1, handle_left1 := -kf.handle_left1,
                       handle_right1 := -kf.handle_right1 }
           else kf) }] :=
  ⟨by decide, by decide,
    (action_mirror_creates_opposite_curve "Arm.L" "Arm.R" wAction wCurve
      (by decide) (by decide)).1⟩


lemma mem_mirror_extend_foldl (flip : String → String) (rigBones : List String) :
    ∀ (l acc : List String) (n : String),
      n ∈ l.foldl (mirror_extend_step flip rigBones) acc ↔
        n ∈ acc ∨ ∃ b ∈ l, flip b ≠ b ∧ rigBones.contains (flip b) = true ∧ n = flip b := by
  intro l
  induction l with
  | nil => intro acc n; simp
  | cons b l ih =>
    intro acc n
    rw [List.foldl_cons]
    by_cases h1 : flip b = b
    · have hstep : mirror_extend_step flip rigBones acc b = acc := by
        simp [mirror_extend_step, h1]
      rw [hstep, ih]
      constructor
      · rintro (h | ⟨b2, hb2, hx⟩)
        · exact Or.inl h
        · exact Or.inr ⟨b2, List.mem_cons_of_mem _ hb2, hx⟩
      · rintro (h | ⟨b2, hb2, hne, hc, hn⟩)
        · exact Or.inl h
        · rcases List.mem_cons.mp hb2 with rfl | hb2
          · exact absurd h1 hne
          · exact Or.inr ⟨b2, hb2, hne, hc, hn⟩
    · by_cases h2 : rigBones.contains (flip b) = true
      · have h2m : flip b ∈ rigBones := by simpa using h2
        have hstep : mirror_extend_step flip rigBones acc b = acc ++ [flip b] := by
          simp [mirror_extend_step, h1, h2m]
        rw [hstep, ih]
        constructor
        · rintro (h | ⟨b2, hb2, hx⟩)
          · rcases List.mem_append.mp h with h | h
            · exact Or.inl h
            · exact Or.inr ⟨b, List.mem_cons_self _ _, h1, h2, by simpa using h⟩
          · exact Or.inr ⟨b2, List.mem_cons_of_mem _ hb2, hx⟩
        · rintro (h | ⟨b2, hb2, hne, hc, hn⟩)
          · exact Or.inl (List.mem_append.mpr (Or.inl h))
          · rcases List.mem_cons.mp hb2 with rfl | hb2
            · exact Or.inl (List.mem_append.mpr (Or.inr (by simp [hn])))
            · exact Or.inr ⟨b2, hb2, hne, hc, hn⟩
      · have h2m : flip b ∉ rigBones := by simpa using h2
        have hstep : mirror_extend_step flip rigBones acc b = acc := by
          simp [mirror_extend_step, h1, h2m]
        rw [hstep, ih]
        constructor
        · rintro (h | ⟨b2, hb2, hx⟩)
          · exact Or.inl h
          · exact Or.inr ⟨b2, List.mem_cons_of_mem _ hb2, hx⟩
        · rintro (h | ⟨b2, hb2, hne, hc, hn⟩)
          · exact Or.inl h
          · rcases List.mem_cons.mp hb2 with rfl | hb2
            · exact absurd hc h2
            · exact Or.inr ⟨b2, hb2, hne, hc, hn⟩

/-- Claim C8: for the operators built on `GenericBoneOperator.affect_bones`
(disconnect, unparent, delete), the list of bone names processed is exactly
the selected bones when X-mirror is disabled; with X-mirror enabled a name
is processed iff it is selected or it is the flipped name of a selected bone
whose name differs from its flipped form and whose flipped name names an
existing bone of the armature. -/
theorem affected_bone_set_mirror_extension (flip : String → String)
    (rigBones selectedNames : List String) :
    affect_bones_names flip false rigBones selectedNames = selectedNames ∧
    ∀ n, n ∈ affect_bones_names flip true rigBones selectedNames ↔
      (n ∈ selectedNames ∨ ∃ b ∈ selectedNames, flip b ≠ b ∧
        rigBones.contains (flip b) = true ∧ n = flip b) := by
  refine ⟨rfl, fun n => ?_⟩
  exact mem_mirror_extend_foldl flip rigBones selectedNames selectedNames n

lemma apply_affect_state {affect : EditBone → Option EditBone × Bool}
    {n : String} {r r2 : ArmatureRig} {w : Bool}
    (h : apply_affect affect n r = some (r2, w)) :
    r2.mode = r.mode ∧ r2.mode_calls = r.mode_calls := by
  unfold apply_affect at h
  cases hf : r.bones.find? (fun b => b.name == n) with
  | none => rw [hf] at h; exact absurd h (by simp)
  | some b =>
    rw [hf] at h
    simp only [Option.some.injEq, Prod.mk.injEq] at h
    obtain ⟨h1, _⟩ := h
    rw [← h1]
    exact ⟨rfl, rfl⟩

lemma affect_bones_loop_state (affect : EditBone → Option EditBone × Bool) :
    ∀ (names : List String) (r : ArmatureRig) (acc : List String)
      (r2 : ArmatureRig) (aff : List String),
      affect_bones_loop affect names r acc = some (r2, aff) →
      r2.mode = r.mode ∧ r2.mode_calls = r.mode_calls := by
  intro names
  induction names with
  | nil =>
    intro r acc r2 aff h
    simp only [affect_bones_loop, Option.some.injEq, Prod.mk.injEq] at h
    obtain ⟨h1, _⟩ := h
    rw [← h1]
    exact ⟨rfl, rfl⟩
  | cons n rest ih =>
    intro r acc r2 aff h
    rw [affect_bones_loop] at h
    cases ha : apply_affect affect n r with
    | none => rw [ha] at h; exact absurd h (by simp)
    | some p =>
      obtain ⟨r3, was⟩ := p
      rw [ha] at h
      obtain ⟨hm1, hc1⟩ := ih _ _ _ _ h
      obtain ⟨hm2, hc2⟩ := apply_affect_state ha
      exact ⟨hm1.trans hm2, hc1.trans hc2⟩

/-- Claim C10: whenever `GenericBoneOperator.affect_bones` returns (for any
per-bone mutation and any flip function), the armature is back in the mode
it was in before the call, and the trace of `mode_set` calls shows that edit
mode was entered first only when the armature was not already in edit mode,
followed by a final restore of the saved mode. -/
theorem affect_bones_restores_mode (affect : EditBone → Option EditBone × Bool)
    (flip : String → String) (r : ArmatureRig) (res : List String × ArmatureRig)
    (h : affect_bones affect flip r = some res) :
    res.2.mode = r.mode ∧
    res.2.mode_calls = r.mode_calls ++
      (if r.mode == "EDIT" then ["EDIT"] else ["EDIT", r.mode]) := by
  unfold affect_bones at h
  dsimp only at h
  cases hl : affect_bones_loop affect
      (affect_bones_names flip r.use_mirror_x (rig_bone_names r) (selected_bone_names r))
      (if r.mode != "EDIT" then mode_set "EDIT" r else r) [] with
  | none => rw [hl] at h; exact absurd h (by simp)
  | some p =>
    obtain ⟨r2, affected⟩ := p
    rw [hl] at h
    simp only [Option.some.injEq] at h
    obtain ⟨hm, hc⟩ := affect_bones_loop_state affect _ _ _ _ _ hl
    rw [← h]
    dsimp only
    cases hmE : r.mode == "EDIT" with
    | true =>
      have hmeq : r.mode = "EDIT" := by simpa using hmE
      have hr1 : (if r.mode != "EDIT" then mode_set "EDIT" r else r) = r := by
        simp [hmeq]
      rw [hr1] at hc
      constructor
      · simp [mode_set]
      · simp [mode_set, hc, hmeq]
    | false =>
      have hmne : ¬r.mode = "EDIT" := by simpa using hmE
      have hr1 : (if r.mode != "EDIT" then mode_set "EDIT" r else r)
          = mode_set "EDIT" r := by simp [hmne]
      rw [hr1] at hc
      constructor
      · simp [mode_set]
      · simp [mode_set, hc, hmne]

/-- Witness for claim C10: the disconnect operator run on a concrete
pose-mode armature. -/
theorem affect_bones_restores_mode_witness :
    affect_bones disconnect_affect flipLR wRig = some wRigResult ∧
    (wRigResult.2.mode = wRig.mode ∧
      wRigResult.2.mode_calls = wRig.mode_calls ++
        (if wRig.mode == "EDIT" then ["EDIT"] else ["EDIT", wRig.mode])) :=
  ⟨by decide,
    affect_bones_restores_mode disconnect_affect flipLR wRig wRigResult (by decide)⟩

/-- Claim C7: every driver-variable target copied by `mirror_drivers` gets
`bone_target` set to the flipped source bone target, and its data path is
rewritten by replacing the pose-bone name extracted from the path by its
flipped form (when the path mentions `pose.bones`; `hwf` excludes the paths
on which the `[1]` indexing would raise), after which the first applicable
of the substrings "left" / "right" is replaced by its opposite — the final
conjunct spells out that `left_right_hack` is exactly that replacement. -/
theorem driver_target_mirror_rewrites (flip : String → String) (vtype : String)
    (t : DriverTarget)
    (hwf : pyContains "pose.bones" t.data_path = true →
      py_split_get1 "pose.bones[\"" t.data_path ≠ none) :
    ∃ u, mirror_driver_var_target flip vtype t = some u ∧
      u.bone_target = flip t.bone_target ∧
      (pyContains "pose.bones" t.data_path = false →
        u.data_path = left_right_hack t.data_path) ∧
      (∀ seg, py_split_get1 "pose.bones[\"" t.data_path = some seg →
        pyContains "pose.bones" t.data_path = true →
        u.data_path = left_right_hack (pyReplace t.data_path (py_split_get0 "\"" seg)
          (flip (py_split_get0 "\"" seg)))) ∧
      (∀ s2, left_right_hack s2 =
        if pyContains "left" s2 then pyReplace s2 "left" "right"
        else if pyContains "right" s2 then pyReplace s2 "right" "left"
        else s2) := by
  unfold mirror_driver_var_target mirror_driver_target_data_path
  cases hpb : pyContains "pose.bones" t.data_path with
  | false =>
    rw [if_neg (by simp)]
    exact ⟨_, rfl, rfl, fun _ => rfl,
      fun seg hseg hpb2 => absurd hpb2 (by simp), fun s2 => rfl⟩
  | true =>
    rw [if_pos rfl]
    cases hseg : py_split_get1 "pose.bones[\"" t.data_path with
    | none => exact absurd hseg (hwf hpb)
    | some seg =>
      refine ⟨_, rfl, rfl, fun hf => absurd hf (by simp),
        fun seg2 hseg2 _ => ?_, fun s2 => rfl⟩
      injection hseg2 with he
      rw [← he]

/-- Witness for claim C7: a concrete target addressing the location of bone
`Arm.L`. -/
theorem driver_target_mirror_witness :
    (pyContains "pose.bones" wTarget.data_path = true →
      py_split_get1 "pose.bones[\"" wTarget.data_path ≠ none) ∧
    (∃ u, mirror_driver_var_target flipLR "TRANSFORMS" wTarget = some u ∧
      u.bone_target = flipLR wTarget.bone_target ∧
      (pyContains "pose.bones" wTarget.data_path = false →
        u.data_path = left_right_hack wTarget.data_path) ∧
      (∀ seg, py_split_get1 "pose.bones[\"" wTarget.data_path = some seg →
        pyContains "pose.bones" wTarget.data_path = true →
        u.data_path = left_right_hack (pyReplace wTarget.data_path (py_split_get0 "\"" seg)
          (flipLR (py_split_get0 "\"" seg)))) ∧
      (∀ s2, left_right_hack s2 =
        if pyContains "left" s2 then pyReplace s2 "left" "right"
        else if pyContains "right" s2 then pyReplace s2 "right" "left"
        else s2)) :=
  ⟨by decide, driver_target_mirror_rewrites flipLR "TRANSFORMS" wTarget (by decide)⟩


end MetsTools
